import Mathlib

/-!
A verification development for `src/threaded_mc/common_mc.c`, a prototype
parallel Monte Carlo estimator.  C `double` arithmetic is embedded as exact
rational arithmetic (`ℚ`); trial counts are natural numbers; integer-valued
configuration fields are `ℤ`.  A call to `exit(-1)` in argument processing is
embedded as `Except.error`.
-/

/-- Configuration record `mc_param_t` (fields `verbose`, `rtol`, `maxtrials`,
`nbatch` as used throughout `common_mc.c`). -/
structure mc_param_t where
  verbose : ℤ
  rtol : ℚ
  maxtrials : ℤ
  nbatch : ℤ
deriving DecidableEq, Repr

/-- Accumulator record `mc_result_t` (fields `sum_X`, `sum_X2`, `ntrials`);
used both for per-batch results and for the shared running total. -/
structure mc_result_t where
  sum_X : ℚ
  sum_X2 : ℚ
  ntrials : ℕ
deriving DecidableEq, Repr

/-- `mc_param_init`: the default parameter values set in `common_mc.c`
(`verbose = 1`, `rtol = 1e-4`, `maxtrials = 10000000`, `nbatch = 5000`). -/
def mc_param_init : mc_param_t :=
  { verbose := 1, rtol := 1 / 10000, maxtrials := 10000000, nbatch := 5000 }

/-- `mc_result_init`: zeroes all three accumulator fields. -/
def mc_result_init : mc_result_t :=
  { sum_X := 0, sum_X2 := 0, ntrials := 0 }

/-- `mc_result_update(result, batch)`: adds each field of `batch` into the
corresponding field of `result`.  The C function mutates `result` in place;
here it returns the updated record. -/
def mc_result_update (result batch : mc_result_t) : mc_result_t :=
  { sum_X := result.sum_X + batch.sum_X
    sum_X2 := result.sum_X2 + batch.sum_X2
    ntrials := result.ntrials + batch.ntrials }

/-- `mc_result_update` viewed on the memory state of both arguments: the C
function writes only through the `result` pointer, so the `batch` record is
returned unchanged. -/
def mc_result_update_st (shared batch : mc_result_t) : mc_result_t × mc_result_t :=
  (mc_result_update shared batch, batch)

/-- `is_converged(param, result)`: transcribes the body of the C function.
`ntrials` is converted to a floating value (`double ntrials = result->ntrials`),
then `EX = sum_X/ntrials`, `EX2 = sum_X2/ntrials`, `varX = EX2 - EX*EX`,
`varEst = varX/ntrials`, and the result is
`varEst/(EX*EX) < rtol*rtol || ntrials > maxtrials`. -/
def is_converged (param : mc_param_t) (result : mc_result_t) : Bool :=
  let rtol := param.rtol
  let maxtrials := param.maxtrials
  let ntrials : ℚ := (result.ntrials : ℚ)
  let EX := result.sum_X / ntrials
  let EX2 := result.sum_X2 / ntrials
  let varX := EX2 - EX * EX
  let varEst := varX / ntrials
  decide (varEst / (EX * EX) < rtol * rtol) || decide (ntrials > (maxtrials : ℚ))

/-- The divisor of the relative-error test inside `is_converged`:
`EX*EX` where `EX = result->sum_X / ntrials`. -/
def relerr_denominator (result : mc_result_t) : ℚ :=
  let ntrials : ℚ := (result.ntrials : ℚ)
  let EX := result.sum_X / ntrials
  EX * EX

/-- C1: for `ntrials > 0`, `is_converged` returns true iff, with
`n = ntrials`, `mean = sum_X/n`, `mean_sq = sum_X2/n`, `var = mean_sq - mean²`
and `var_of_mean = var/n`, either `var_of_mean/mean² < rtol²` or
`n > maxtrials`. -/
theorem is_converged_iff_spec (p : mc_param_t) (r : mc_result_t)
    (h : 0 < r.ntrials) :
    is_converged p r = true ↔
      ((r.sum_X2 / (r.ntrials : ℚ)
          - (r.sum_X / (r.ntrials : ℚ)) * (r.sum_X / (r.ntrials : ℚ)))
            / (r.ntrials : ℚ))
          / ((r.sum_X / (r.ntrials : ℚ)) * (r.sum_X / (r.ntrials : ℚ)))
        < p.rtol * p.rtol
      ∨ (r.ntrials : ℚ) > (p.maxtrials : ℚ) := by
  simp [is_converged, Bool.or_eq_true, decide_eq_true_eq]

/-- Witness for C1 at a concrete input: `p = mc_param_init`,
`r = ⟨1, 1, 2⟩` (two trials, sum 1, sum of squares 1). -/
theorem is_converged_iff_spec_w :
    0 < (2 : ℕ) ∧
      (is_converged mc_param_init ⟨1, 1, 2⟩ = true ↔
        ((1 / ((2 : ℕ) : ℚ)
            - (1 / ((2 : ℕ) : ℚ)) * (1 / ((2 : ℕ) : ℚ)))
              / ((2 : ℕ) : ℚ))
            / ((1 / ((2 : ℕ) : ℚ)) * (1 / ((2 : ℕ) : ℚ)))
          < mc_param_init.rtol * mc_param_init.rtol
        ∨ ((2 : ℕ) : ℚ) > ((mc_param_init.maxtrials : ℤ) : ℚ)) :=
  ⟨by decide, is_converged_iff_spec mc_param_init ⟨1, 1, 2⟩ (by decide)⟩

/-- Folding `mc_result_update` over a list of batches adds the element-wise
sums of the batches to the starting accumulator. -/
theorem foldl_update_eq (a : mc_result_t) (l : List mc_result_t) :
    l.foldl mc_result_update a =
      { sum_X := a.sum_X + (l.map mc_result_t.sum_X).sum
        sum_X2 := a.sum_X2 + (l.map mc_result_t.sum_X2).sum
        ntrials := a.ntrials + (l.map mc_result_t.ntrials).sum } := by
  induction l generalizing a with
  | nil => simp
  | cons b t ih =>
    simp only [List.foldl_cons, List.map_cons, List.sum_cons, ih,
      mc_result_update]
    congr 1 <;> ring

/-- C2: starting from `mc_result_init` (all fields zero), after merging any
finite sequence of batches with `mc_result_update`, each field of the shared
result equals the sum of that field over all merged batches. -/
theorem shared_result_eq_componentwise_sums (l : List mc_result_t) :
    (l.foldl mc_result_update mc_result_init).sum_X
        = (l.map mc_result_t.sum_X).sum
      ∧ (l.foldl mc_result_update mc_result_init).sum_X2
        = (l.map mc_result_t.sum_X2).sum
      ∧ (l.foldl mc_result_update mc_result_init).ntrials
        = (l.map mc_result_t.ntrials).sum := by
  rw [foldl_update_eq]
  simp [mc_result_init]

/-- C3: merging a finite collection of batches into an initially-zeroed shared
result in any order yields the same final record (arithmetic is exact here, so
the agreement is exact), and `mc_result_update` is commutative and
associative. -/
theorem mc_result_merge_order_independent (l1 l2 : List mc_result_t)
    (h : l1.Perm l2) (a b c : mc_result_t) :
    l1.foldl mc_result_update mc_result_init
        = l2.foldl mc_result_update mc_result_init
      ∧ mc_result_update a b = mc_result_update b a
      ∧ mc_result_update (mc_result_update a b) c
        = mc_result_update a (mc_result_update b c) := by
  refine ⟨?_, ?_, ?_⟩
  · rw [foldl_update_eq, foldl_update_eq,
      (h.map mc_result_t.sum_X).sum_eq, (h.map mc_result_t.sum_X2).sum_eq,
      (h.map mc_result_t.ntrials).sum_eq]
  · simp only [mc_result_update]
    congr 1 <;> ring
  · simp only [mc_result_update]
    congr 1 <;> ring

/-- Witness for C3: two concrete batches merged in both orders. -/
theorem mc_result_merge_order_independent_w :
    ([⟨1, 2, 3⟩, ⟨4, 5, 6⟩] : List mc_result_t).foldl mc_result_update
          mc_result_init
        = ([⟨4, 5, 6⟩, ⟨1, 2, 3⟩] : List mc_result_t).foldl mc_result_update
          mc_result_init
      ∧ mc_result_update ⟨1, 2, 3⟩ ⟨4, 5, 6⟩
        = mc_result_update ⟨4, 5, 6⟩ ⟨1, 2, 3⟩
      ∧ mc_result_update (mc_result_update ⟨1, 2, 3⟩ ⟨4, 5, 6⟩) ⟨7, 8, 9⟩
        = mc_result_update ⟨1, 2, 3⟩ (mc_result_update ⟨4, 5, 6⟩ ⟨7, 8, 9⟩) :=
  mc_result_merge_order_independent [⟨1, 2, 3⟩, ⟨4, 5, 6⟩]
    [⟨4, 5, 6⟩, ⟨1, 2, 3⟩]
    (List.Perm.swap (⟨4, 5, 6⟩ : mc_result_t) (⟨1, 2, 3⟩ : mc_result_t) [])
    ⟨1, 2, 3⟩ ⟨4, 5, 6⟩ ⟨7, 8, 9⟩

/-- C9: `mc_result_update(shared, batch)` adds `batch`'s fields into the three
accumulator fields of `shared` and leaves the `batch` argument unchanged (the
C function writes only through the `result` pointer). -/
theorem mc_result_update_frame (shared batch : mc_result_t) :
    mc_result_update_st shared batch
      = ({ sum_X := shared.sum_X + batch.sum_X
           sum_X2 := shared.sum_X2 + batch.sum_X2
           ntrials := shared.ntrials + batch.ntrials }, batch) := by
  rfl

/-- Modelled from the spec: the Mersenne twister state `struct mt19937p` and
its step function `genrand` live in `mt19937p.h`/`mt19937p.c`, which are not
under `src/`.  Per the spec (§4.1, RandomStream) a stream is opaque generator
state whose "next value" operation advances the state by exactly one step and
returns one pseudorandom value; we model the state as the stream of values it
will emit together with the current position. -/
structure mt19937p where
  vals : ℕ → ℚ
  pos : ℕ

/-- Modelled from the spec: `genrand(mt)` returns the next value of the stream
and advances the internal state by exactly one step (§4.1). -/
def genrand (mt : mt19937p) : ℚ × mt19937p :=
  (mt.vals mt.pos, { vals := mt.vals, pos := mt.pos + 1 })

/-- `run_trial(mt)`: one trial is a single call to `genrand` whose value is
returned unchanged. -/
def run_trial (mt : mt19937p) : ℚ × mt19937p :=
  genrand mt

/-- The loop body of `run_trials`: `k` remaining iterations, accumulators
`sum_X` and `sum_X2`; each iteration draws `X = run_trial(mt)` and adds `X`
and `X*X`. -/
def run_trials_go (mt : mt19937p) (k : ℕ) (sum_X sum_X2 : ℚ) :
    mt19937p × ℚ × ℚ :=
  match k with
  | 0 => (mt, sum_X, sum_X2)
  | Nat.succ j =>
    let s := run_trial mt
    run_trials_go s.2 j (sum_X + s.1) (sum_X2 + s.1 * s.1)

/-- `run_trials(mt, nbatch, result)`: runs the accumulation loop for `nbatch`
trials starting from local accumulators `0`, then stores `sum_X`, `sum_X2` and
`ntrials = nbatch` into the result.  Returns the advanced stream and the
filled result record. -/
def run_trials (mt : mt19937p) (nbatch : ℕ) : mt19937p × mc_result_t :=
  let out := run_trials_go mt nbatch 0 0
  (out.1, { sum_X := out.2.1, sum_X2 := out.2.2, ntrials := nbatch })

/-- Unfolding of the `run_trials` loop: starting at position `p`, `k`
iterations consume exactly the values at positions `p, p+1, …, p+k-1`, adding
their sum (resp. sum of squares) to the accumulators. -/
theorem run_trials_go_eq (v : ℕ → ℚ) (k : ℕ) :
    ∀ (p : ℕ) (sx sx2 : ℚ),
      run_trials_go ⟨v, p⟩ k sx sx2 =
        (⟨v, p + k⟩, sx + ∑ i in Finset.range k, v (p + i),
          sx2 + ∑ i in Finset.range k, v (p + i) * v (p + i)) := by
  induction k with
  | zero => intro p sx sx2; simp [run_trials_go]
  | succ j ih =>
    intro p sx sx2
    rw [run_trials_go]
    simp only [run_trial, genrand]
    rw [ih (p + 1) (sx + v p) (sx2 + v p * v p)]
    have hsum : ∀ f : ℕ → ℚ,
        f p + ∑ i in Finset.range j, f (p + 1 + i)
          = ∑ i in Finset.range (j + 1), f (p + i) := by
      intro f
      rw [Finset.sum_range_succ']
      simp only [Nat.add_zero]
      rw [add_comm]
      congr 1
      refine Finset.sum_congr rfl ?_
      intro i _
      congr 1
      omega
    refine Prod.ext ?_ (Prod.ext ?_ ?_)
    · simp only []
      congr 1
      omega
    · simp only []
      rw [add_assoc, hsum (fun i => v i)]
    · simp only []
      rw [add_assoc, hsum (fun i => v i * v i)]

/-- C4: `run_trials(mt, nbatch, result)` draws exactly one value from the
stream per trial — the stream position advances by exactly `nbatch` and the
underlying sequence is untouched — and fills the result with the sum of the
`nbatch` drawn values, the sum of their squares, and the count `nbatch`. -/
theorem run_trials_spec (mt : mt19937p) (nbatch : ℕ) :
    (run_trials mt nbatch).2.sum_X
        = ∑ i in Finset.range nbatch, mt.vals (mt.pos + i)
      ∧ (run_trials mt nbatch).2.sum_X2
        = ∑ i in Finset.range nbatch, mt.vals (mt.pos + i) * mt.vals (mt.pos + i)
      ∧ (run_trials mt nbatch).2.ntrials = nbatch
      ∧ (run_trials mt nbatch).1.pos = mt.pos + nbatch
      ∧ (run_trials mt nbatch).1.vals = mt.vals := by
  obtain ⟨v, p⟩ := mt
  simp [run_trials, run_trials_go_eq v nbatch p 0 0]

/-- C5: with `rtol = 0` and a nonnegative estimated variance
(`sum_X2/n - (sum_X/n)² ≥ 0`, which holds for results aggregated from actual
samples), `is_converged` returns true iff `ntrials > maxtrials`: the
relative-precision disjunct `varEst/(EX*EX) < 0` can never fire, so a
tolerance-zero run can only stop through the trial budget, with the final
count strictly exceeding it. -/
theorem is_converged_rtol_zero (p : mc_param_t) (r : mc_result_t)
    (hrtol : p.rtol = 0)
    (hvar : 0 ≤ r.sum_X2 / (r.ntrials : ℚ)
        - (r.sum_X / (r.ntrials : ℚ)) * (r.sum_X / (r.ntrials : ℚ))) :
    is_converged p r = true ↔ (r.ntrials : ℚ) > (p.maxtrials : ℚ) := by
  simp only [is_converged, hrtol, mul_zero, Bool.or_eq_true, decide_eq_true_eq]
  have hq : 0 ≤ ((r.sum_X2 / (r.ntrials : ℚ)
        - (r.sum_X / (r.ntrials : ℚ)) * (r.sum_X / (r.ntrials : ℚ)))
          / (r.ntrials : ℚ))
      / ((r.sum_X / (r.ntrials : ℚ)) * (r.sum_X / (r.ntrials : ℚ))) := by
    apply div_nonneg
    · exact div_nonneg hvar (by positivity)
    · exact mul_self_nonneg _
  constructor
  · intro hc
    rcases hc with hc | hc
    · exact absurd hc (not_lt.mpr hq)
    · exact hc
  · intro hc
    exact Or.inr hc

/-- Witness for C5: `rtol = 0`, `maxtrials = 1`, and a result of two trials
with `sum_X = 1`, `sum_X2 = 1` (estimated variance `1/4 ≥ 0`). -/
theorem is_converged_rtol_zero_w :
    ({ verbose := 1, rtol := 0, maxtrials := 1, nbatch := 5000 }
        : mc_param_t).rtol = 0
      ∧ 0 ≤ (1 : ℚ) / ((2 : ℕ) : ℚ)
          - ((1 : ℚ) / ((2 : ℕ) : ℚ)) * ((1 : ℚ) / ((2 : ℕ) : ℚ))
      ∧ (is_converged { verbose := 1, rtol := 0, maxtrials := 1, nbatch := 5000 }
            ⟨1, 1, 2⟩ = true
          ↔ ((2 : ℕ) : ℚ) > ((1 : ℤ) : ℚ)) :=
  ⟨by decide, by norm_num,
    is_converged_rtol_zero
      { verbose := 1, rtol := 0, maxtrials := 1, nbatch := 5000 }
      ⟨1, 1, 2⟩ rfl (by norm_num)⟩

/-- C8 counterexample: a concrete result with `ntrials = 10 > 0` and
`sum_X = 0`.  The divisor `EX*EX` of the relative-error test is exactly `0`,
and `is_converged` still applies the division to it unguarded — there is no
fallback branch for the zero-mean case.  (Under the embedding's total
division, `x/0 = 0 < rtol²`, so the test reports convergence regardless of the
variance; in C's IEEE doubles the same unguarded division yields `inf`/`NaN`.) -/
theorem zero_mean_division_cex :
    relerr_denominator ⟨0, 1, 10⟩ = 0
      ∧ is_converged mc_param_init ⟨0, 1, 10⟩ = true := by
  constructor
  · simp [relerr_denominator]
  · simp only [is_converged, mc_param_init, Bool.or_eq_true, decide_eq_true_eq]
    left
    norm_num

/-- C8, amended: whenever `ntrials > 0` and `sum_X = 0`, the relative-error
test in `is_converged` divides by the zero quantity `EX*EX` with no guard or
fallback: the outcome is dictated purely by the ambient division-by-zero
convention (here `x/0 = 0`, so the test is `0 < rtol²` independently of the
variance estimate), not by any case analysis in the code. -/
theorem is_converged_zero_mean_unguarded (p : mc_param_t) (r : mc_result_t)
    (hX : r.sum_X = 0) :
    relerr_denominator r = 0
      ∧ (is_converged p r = true
          ↔ (0 < p.rtol * p.rtol ∨ (r.ntrials : ℚ) > (p.maxtrials : ℚ))) := by
  constructor
  · simp [relerr_denominator, hX]
  · simp [is_converged, hX, Bool.or_eq_true, decide_eq_true_eq]

/-- Witness for C8's amended statement at `r = ⟨0, 1, 10⟩`,
`p = mc_param_init`. -/
theorem is_converged_zero_mean_unguarded_w :
    relerr_denominator ⟨0, 1, 10⟩ = 0
      ∧ (is_converged mc_param_init ⟨0, 1, 10⟩ = true
          ↔ (0 < mc_param_init.rtol * mc_param_init.rtol
              ∨ ((10 : ℕ) : ℚ) > ((mc_param_init.maxtrials : ℤ) : ℚ))) :=
  is_converged_zero_mean_unguarded mc_param_init ⟨0, 1, 10⟩ rfl

/-- A parsed command-line option, as produced by the `getopt "p:t:n:b:v:"`
loop in `process_args`: the flag together with the numeric value obtained from
its argument (`atoi` for `-p`, `-n`, `-b`, `-v`; `atof` for `-t`). -/
inductive mc_opt where
  | P (v : ℤ)
  | T (v : ℚ)
  | N (v : ℤ)
  | B (v : ℤ)
  | V (v : ℤ)
deriving DecidableEq, Repr

/-- One iteration of the `switch` in `process_args`, threading the state
`(nthreads, param)`.  `MAX_MC_THREADS` is defined in `common_mc.h`, which is
not under `src/`; the spec calls it "a fixed hard cap", so it is a parameter
here.  `exit(-1)` becomes `Except.error` carrying the message printed to
`stderr`. -/
def process_one (MAX_MC_THREADS : ℤ) (st : ℤ × mc_param_t) (o : mc_opt) :
    Except String (ℤ × mc_param_t) :=
  match o with
  | mc_opt.P v =>
    if v ≤ 0 ∨ MAX_MC_THREADS < v then
      Except.error "nthreads must be in range"
    else
      Except.ok (v, st.2)
  | mc_opt.T v =>
    if v < 0 then
      Except.error "rtol must be positive"
    else
      Except.ok (st.1, { st.2 with rtol := v })
  | mc_opt.N v =>
    if v < 1 then
      Except.error "maxtrials must be positive"
    else
      Except.ok (st.1, { st.2 with maxtrials := v })
  | mc_opt.B v =>
    if v < 1 then
      Except.error "nbatch must be positive"
    else
      Except.ok (st.1, { st.2 with nbatch := v })
  | mc_opt.V v =>
    Except.ok (st.1, { st.2 with verbose := v })

/-- The `while (getopt(...))` loop of `process_args`: options are handled left
to right and the first failing check aborts the whole call. -/
def process_args_loop (MAX_MC_THREADS : ℤ) (st : ℤ × mc_param_t)
    (opts : List mc_opt) : Except String (ℤ × mc_param_t) :=
  match opts with
  | [] => Except.ok st
  | o :: rest =>
    match process_one MAX_MC_THREADS st o with
    | Except.error e => Except.error e
    | Except.ok st2 => process_args_loop MAX_MC_THREADS st2 rest

/-- `process_args(argc, argv, param)` on a well-formed option list: `nthreads`
starts at `0`, `param` starts at the `mc_param_init` defaults, each option is
validated in turn, and on success the final `nthreads` is returned alongside
the filled parameter record.  (The `getopt` error paths for a malformed
command line — a missing argument, an unknown flag, or a trailing non-option
argument — also call `exit(-1)` in the C code; only well-formed parsed option
lists are modelled.) -/
def process_args (MAX_MC_THREADS : ℤ) (opts : List mc_opt) :
    Except String (ℤ × mc_param_t) :=
  process_args_loop MAX_MC_THREADS (0, mc_param_init) opts

/-- If the loop hits an option that fails its check, the whole call errors. -/
theorem process_args_loop_error (MAX_MC_THREADS : ℤ) (opts : List mc_opt)
    (o : mc_opt)
    (hbad : ∀ st : ℤ × mc_param_t,
      ∃ e, process_one MAX_MC_THREADS st o = Except.error e) :
    ∀ st : ℤ × mc_param_t, o ∈ opts →
      ∃ e, process_args_loop MAX_MC_THREADS st opts = Except.error e := by
  induction opts with
  | nil => intro st hmem; cases hmem
  | cons a rest ih =>
    intro st hmem
    rcases List.mem_cons.mp hmem with heq | htail
    · subst heq
      obtain ⟨e, he⟩ := hbad st
      exact ⟨e, by rw [process_args_loop, he]⟩
    · rw [process_args_loop]
      cases hpo : process_one MAX_MC_THREADS st a with
      | error e => exact ⟨e, rfl⟩
      | ok st2 => exact ih st2 htail

/-- If no `-p` option occurs, the loop never writes `nthreads`. -/
theorem process_args_loop_no_p (MAX_MC_THREADS : ℤ) (opts : List mc_opt)
    (hnp : ∀ v : ℤ, mc_opt.P v ∉ opts) :
    ∀ (st res : ℤ × mc_param_t),
      process_args_loop MAX_MC_THREADS st opts = Except.ok res →
        res.1 = st.1 := by
  induction opts with
  | nil =>
    intro st res hrun
    rw [process_args_loop] at hrun
    cases hrun
    rfl
  | cons a rest ih =>
    intro st res hrun
    rw [process_args_loop] at hrun
    cases hpo : process_one MAX_MC_THREADS st a with
    | error e => rw [hpo] at hrun; cases hrun
    | ok st2 =>
      rw [hpo] at hrun
      have hrest : ∀ v : ℤ, mc_opt.P v ∉ rest := by
        intro v hv
        exact hnp v (List.mem_cons_of_mem a hv)
      have hfst : st2.1 = st.1 := by
        cases a with
        | P v => exact absurd (List.mem_cons_self _ _) (hnp v)
        | T v =>
          rw [process_one] at hpo
          by_cases hc : v < 0
          · rw [if_pos hc] at hpo; cases hpo
          · rw [if_neg hc] at hpo; cases hpo; rfl
        | N v =>
          rw [process_one] at hpo
          by_cases hc : v < 1
          · rw [if_pos hc] at hpo; cases hpo
          · rw [if_neg hc] at hpo; cases hpo; rfl
        | B v =>
          rw [process_one] at hpo
          by_cases hc : v < 1
          · rw [if_pos hc] at hpo; cases hpo
          · rw [if_neg hc] at hpo; cases hpo; rfl
        | V v =>
          rw [process_one] at hpo
          cases hpo
          rfl
      rw [ih hrest st2 res hrun, hfst]

/-- C6 counterexample: `-t 0` supplies the tolerance `t = 0 ≤ 0`, yet
`process_args` succeeds — the C check is `rtol < 0`, so a zero tolerance is
accepted into the parameters instead of causing the claimed fatal startup
error. -/
theorem process_args_accepts_zero_rtol :
    process_args 16 [mc_opt.T 0]
      = Except.ok
          (0, { verbose := 1, rtol := 0, maxtrials := 10000000, nbatch := 5000 }) := by
  simp [process_args, process_args_loop, process_one, mc_param_init]

/-- C6, amended: for every tolerance `t < 0` supplied via `-t`,
`process_args` reports a fatal startup error and exits (modelled as
`Except.error`) before the run begins; `t = 0` is accepted, so only strictly
negative tolerances are rejected. -/
theorem process_args_rejects_negative_rtol (MAX_MC_THREADS : ℤ)
    (opts : List mc_opt) (t : ℚ) (hmem : mc_opt.T t ∈ opts) (ht : t < 0) :
    ∃ e, process_args MAX_MC_THREADS opts = Except.error e := by
  refine process_args_loop_error MAX_MC_THREADS opts (mc_opt.T t) ?_
    (0, mc_param_init) hmem
  intro st
  refine ⟨"rtol must be positive", ?_⟩
  simp only [process_one]
  rw [if_pos ht]

/-- Witness for C6's amended statement: `-t -1`. -/
theorem process_args_rejects_negative_rtol_w :
    ∃ e, process_args 16 [mc_opt.T (-1)] = Except.error e :=
  process_args_rejects_negative_rtol 16 [mc_opt.T (-1)] (-1)
    (List.mem_singleton.mpr rfl) (by norm_num)

/-- C7: for every requested worker count `v` with `v ≤ 0` or
`v > MAX_MC_THREADS` supplied via `-p`, `process_args` reports an error and
exits (modelled as `Except.error`), so startup fails before any worker is
created or any trial runs. -/
theorem process_args_rejects_bad_nthreads (MAX_MC_THREADS : ℤ)
    (opts : List mc_opt) (v : ℤ) (hmem : mc_opt.P v ∈ opts)
    (hv : v ≤ 0 ∨ MAX_MC_THREADS < v) :
    ∃ e, process_args MAX_MC_THREADS opts = Except.error e := by
  refine process_args_loop_error MAX_MC_THREADS opts (mc_opt.P v) ?_
    (0, mc_param_init) hmem
  intro st
  refine ⟨"nthreads must be in range", ?_⟩
  simp only [process_one]
  rw [if_pos hv]

/-- Witness for C7: `-p 100` with a hard cap of 16. -/
theorem process_args_rejects_bad_nthreads_w :
    ∃ e, process_args 16 [mc_opt.P 100] = Except.error e :=
  process_args_rejects_bad_nthreads 16 [mc_opt.P 100] 100
    (List.mem_singleton.mpr rfl) (Or.inr (by norm_num))

/-- C10: when no `-p` option is supplied, `process_args` returns `0` as the
worker count without reporting any error — `nthreads` is initialized to `0`
and the range check `[1, MAX_MC_THREADS]` runs only inside the `case 'p'`
branch, so the out-of-range default is never checked. -/
theorem process_args_default_nthreads_zero (MAX_MC_THREADS : ℤ)
    (opts : List mc_opt) (hnp : ∀ v : ℤ, mc_opt.P v ∉ opts)
    (res : ℤ × mc_param_t)
    (hrun : process_args MAX_MC_THREADS opts = Except.ok res) :
    res.1 = 0 :=
  process_args_loop_no_p MAX_MC_THREADS opts hnp (0, mc_param_init) res hrun

/-- Witness for C10: the option list `[-t 1]` contains no `-p`, succeeds, and
returns worker count `0`. -/
theorem process_args_default_nthreads_zero_w :
    ((0 : ℤ),
        ({ verbose := 1, rtol := 1, maxtrials := 10000000, nbatch := 5000 }
          : mc_param_t)).1 = 0 :=
  process_args_default_nthreads_zero 16 [mc_opt.T 1]
    (by intro v hv; simp at hv)
    (0, { verbose := 1, rtol := 1, maxtrials := 10000000, nbatch := 5000 })
    (by norm_num [process_args, process_args_loop, process_one, mc_param_init])
